import Mathlib

/-!
Verification of the recommendation and classification engine of a
study-abroad advising backend.

The definitions below are a shallow embedding of the Python source:

- string values handled by Python code are embedded as `List Char`
  (`PyStr`), with `pyLower` and `pyStrip` embedding `str.lower()` and
  `str.strip()`;
- numeric values (GPA, budget, tuition) are embedded as `Rat`, ranks and
  years as `Int`, ids as `Nat`;
- nullable columns are embedded as `Option`;
- the database state touched by the shortlist endpoints is embedded as
  `AppState` (shortlist rows, task rows, user-stage rows), and each
  endpoint as a state-passing function; a raised HTTP error is embedded
  as an error value, with the state component showing exactly the
  mutations that were committed before the raise;
- `scoring.score_university`, `scoring.categorize_universities`,
  `crud.normalize_status`, `crud.calculate_profile_strength`,
  `database.normalize_country`, `database.query_universities`,
  `crud.lock_university`, `crud.add_to_shortlist`,
  `crud.update_user_stage`, `crud.clear_user_tasks` and the
  `main.update_shortlist` / `main.remove_shortlist` endpoints keep their
  source names.

Python list `sort` with a key and `reverse=True` is a stable descending
sort; it is embedded as `List.insertionSort` with the reflexive total
relation `scoreGE`, which is stable in the same sense (equal keys keep
their original relative order).  SQL `ORDER BY rank ASC NULLS LAST` is
embedded as `List.insertionSort rankLE`.
-/

/-- Python strings, embedded as lists of characters. -/
abbrev PyStr := List Char

/-- Embedding of `str.lower()`. -/
def pyLower (s : PyStr) : PyStr := s.map Char.toLower

/-- Whitespace characters removed by Python `str.strip()`. -/
def isPySpace (c : Char) : Bool :=
  c == ' ' || c == '\t' || c == '\n' || c == '\r' || c == '\x0b' || c == '\x0c'

/-- Embedding of `str.strip()`: drop whitespace from both ends. -/
def pyStrip (s : PyStr) : PyStr :=
  ((s.dropWhile isPySpace).reverse.dropWhile isPySpace).reverse

/-- A row of the `universities` table / a university dict as produced by
`database.query_universities`.  `rank`, `competitiveness` and
`estimated_tuition_usd` are nullable; `none` is also used for a missing
dict key, which `dict.get` replaces by the documented default. -/
structure University where
  id : Nat := 0
  country : PyStr := []
  rank : Option Int := none
  competitiveness : Option String := none
  estimated_tuition_usd : Option ℚ := none
deriving DecidableEq

/-- Embedding of `scoring.score_university` (src/scoring.py lines 8-83).
The three sub-scores are computed exactly as in the source, with the
documented defaults for missing fields (rank 500, tuition 0,
competitiveness MEDIUM). -/
def score_university (gpa : ℚ) (budget : ℚ) (u : University) : ℚ :=
  let rank := u.rank.getD 500
  let rank_score : ℚ :=
    if rank ≤ 50 then 40
    else if rank ≤ 100 then 35
    else if rank ≤ 200 then 30
    else if rank ≤ 300 then 25
    else 20
  let tuition := u.estimated_tuition_usd.getD 0
  let budget_score : ℚ :=
    if tuition ≤ budget * 0.7 then 30
    else if tuition ≤ budget then 25
    else if tuition ≤ budget * 1.2 then 15
    else 5
  let competitiveness := u.competitiveness.getD "MEDIUM"
  let gpa_score : ℚ :=
    if competitiveness = "HIGH" then
      if gpa ≥ 8.5 then 30 else if gpa ≥ 7.5 then 20 else 10
    else if competitiveness = "MEDIUM" then
      if gpa ≥ 7.0 then 30 else if gpa ≥ 6.0 then 25 else 15
    else
      if gpa ≥ 6.0 then 30 else 25
  rank_score + budget_score + gpa_score

/-- Prestige sub-score as worded in the specification (step function of
rank). -/
def specPrestigeSubScore (rank : Int) : ℚ :=
  if rank ≤ 50 then 40
  else if rank ≤ 100 then 35
  else if rank ≤ 200 then 30
  else if rank ≤ 300 then 25
  else 20

/-- Cost-fit sub-score as worded in the specification (tuition versus
budget fractions). -/
def specCostFitSubScore (budget : ℚ) (tuition : ℚ) : ℚ :=
  if tuition ≤ budget * 0.7 then 30
  else if tuition ≤ budget then 25
  else if tuition ≤ budget * 1.2 then 15
  else 5

/-- Academic-fit sub-score as worded in the specification (tier-specific
thresholds on the academic score). -/
def specAcademicFitSubScore (tier : String) (score : ℚ) : ℚ :=
  if tier = "HIGH" then
    if score ≥ 8.5 then 30 else if score ≥ 7.5 then 20 else 10
  else if tier = "MEDIUM" then
    if score ≥ 7.0 then 30 else if score ≥ 6.0 then 25 else 15
  else
    if score ≥ 6.0 then 30 else 25

/-- Embedding of the category assignment inside
`scoring.categorize_universities` (src/scoring.py lines 125-140):
default TARGET, then the if / elif chain on rank and competitiveness.
The fit score is not an input: the assignment is independent of it. -/
def categoryOf (ranking_rank : Int) (competitiveness : String) : String :=
  if ranking_rank ≤ 50 ∧ competitiveness = "HIGH" then "DREAM"
  else if 100 < ranking_rank ∨ competitiveness ∈ (["LOW", "VERY_LOW"] : List String) then "SAFE"
  else if ranking_rank ≤ 100 ∧ competitiveness ∈ (["HIGH", "MEDIUM"] : List String) then "TARGET"
  else "TARGET"

/-- Category of a university dict, with the defaults used at the call
site of the chain (`uni.get("rank", 500)`, `uni.get("competitiveness",
"MEDIUM")`). -/
def uniCategory (u : University) : String :=
  categoryOf (u.rank.getD 500) (u.competitiveness.getD "MEDIUM")

/-- The tier rule as worded in the claim: fixed priority order, first
match wins, unmatched defaults to TARGET. -/
def specTierRule (rank : Int) (comp : String) : String :=
  if rank ≤ 50 ∧ comp = "HIGH" then "DREAM"
  else if 100 < rank ∨ comp ∈ (["LOW", "VERY_LOW"] : List String) then "SAFE"
  else if rank ≤ 100 ∧ comp ∈ (["HIGH", "MEDIUM"] : List String) then "TARGET"
  else "TARGET"

/-- Result shape of `scoring.categorize_universities`. -/
structure Categorized where
  dream : List University
  target : List University
  safe : List University
deriving DecidableEq

/-- Order used by `scored.sort(key=lambda x: x[1], reverse=True)`:
higher score first.  `List.insertionSort` with this relation is the
stable descending sort that Python performs. -/
def scoreGE (x y : University × ℚ) : Prop := y.2 ≤ x.2

instance : DecidableRel scoreGE := fun x y => inferInstanceAs (Decidable (y.2 ≤ x.2))

instance : IsTotal (University × ℚ) scoreGE := ⟨fun x y => le_total y.2 x.2⟩

instance : IsTrans (University × ℚ) scoreGE := ⟨fun _ _ _ h1 h2 => le_trans h2 h1⟩

/-- The accumulation loop of `scoring.categorize_universities`
(src/scoring.py lines 118-148): walk the sorted pool, compute the
category, append to the matching list only while it has fewer than 5
entries. -/
def catFold : List (University × ℚ) → List University → List University →
    List University → Categorized
  | [], d, t, s => ⟨d, t, s⟩
  | (uni, _) :: rest, d, t, s =>
    let category := uniCategory uni
    if category = "DREAM" then
      if d.length < 5 then catFold rest (d ++ [uni]) t s else catFold rest d t s
    else if category = "SAFE" then
      if s.length < 5 then catFold rest d t (s ++ [uni]) else catFold rest d t s
    else
      if t.length < 5 then catFold rest d (t ++ [uni]) s else catFold rest d t s

/-- Embedding of `scoring.categorize_universities` (src/scoring.py lines
85-149): score all, sort by score descending (stable), then distribute
with the per-category cap of 5. -/
def categorize_universities (universities : List University) (gpa : ℚ) (budget : ℚ) :
    Categorized :=
  let scored := universities.map (fun uni => (uni, score_university gpa budget uni))
  let sorted := scored.insertionSort scoreGE
  catFold sorted [] [] []

/-- Completed synonyms recognized by `crud.normalize_status`. -/
def completedSyn : List PyStr :=
  ["completed".toList, "done".toList, "ready".toList, "finished".toList]

/-- In-progress synonyms recognized by `crud.normalize_status`. -/
def inProgressSyn : List PyStr :=
  ["in progress".toList, "in_progress".toList, "draft".toList,
   "drafting".toList, "started".toList, "planning".toList]

/-- Not-started synonyms recognized by `crud.normalize_status`. -/
def notStartedSyn : List PyStr :=
  ["not started".toList, "not_started".toList, "pending".toList,
   "todo".toList, "none".toList]

/-- Embedding of `crud.normalize_status` (src/crud.py lines 304-328).
`none` embeds a SQL NULL; the first guard embeds the Python truthiness
test `not status or status.strip() == ""`. -/
def normalize_status (status : Option PyStr) : String :=
  match status with
  | none => "NOT_STARTED"
  | some s =>
    if s = [] ∨ pyStrip s = [] then "NOT_STARTED"
    else if pyStrip (pyLower s) ∈ completedSyn then "COMPLETED"
    else if pyStrip (pyLower s) ∈ inProgressSyn then "IN_PROGRESS"
    else if pyStrip (pyLower s) ∈ notStartedSyn then "NOT_STARTED"
    else "IN_PROGRESS"

/-- The columns of a `user_profiles` row read by
`crud.calculate_profile_strength`; every one of them is nullable. -/
structure UserProfileRow where
  gpa : Option ℚ := none
  degree : Option PyStr := none
  graduation_year : Option Int := none
  ielts_status : Option PyStr := none
  gre_gmat_status : Option PyStr := none
  sop_status : Option PyStr := none
  funding_plan : Option PyStr := none
  preferred_countries : Option (List PyStr) := none
  budget_per_year : Option Int := none
  field_of_study : Option PyStr := none
deriving DecidableEq

/-- One section of the profile-strength breakdown. -/
structure PSection where
  score : Nat
  max : Nat
  status : String
deriving DecidableEq

/-- Result shape of `crud.calculate_profile_strength`. -/
structure ProfileStrength where
  overall : Nat
  academics : PSection
  exams : PSection
  sop : PSection
  documents : PSection
  preferences : PSection
  next_actions : List String
deriving DecidableEq

/-- Embedding of `crud.calculate_profile_strength` (src/crud.py lines
331-569).  Conjunctions like `g ≠ 0 ∧ 0 < g` embed the Python pattern
`profile.gpa and float(profile.gpa) > 0` (truthiness test followed by a
comparison); `round(total, 1)` on an integer total is the identity. -/
def calculate_profile_strength (profile : UserProfileRow) : ProfileStrength :=
  let gpaPts : Nat := match profile.gpa with
    | some g => if g ≠ 0 ∧ 0 < g then 15 else 0
    | none => 0
  let degreePts : Nat := match profile.degree with
    | some d => if d ≠ [] ∧ pyStrip d ≠ [] then 10 else 0
    | none => 0
  let gradPts : Nat := match profile.graduation_year with
    | some y => if y ≠ 0 ∧ 0 < y then 5 else 0
    | none => 0
  let academics_score := gpaPts + degreePts + gradPts
  let academics_status :=
    if academics_score = 0 then "missing"
    else if academics_score ≥ 25 then "strong"
    else if academics_score ≥ 15 then "partial"
    else "weak"
  let ielts := normalize_status profile.ielts_status
  let ieltsPts : Nat := if ielts = "COMPLETED" then 12
    else if ielts = "IN_PROGRESS" then 6 else 0
  let gre := normalize_status profile.gre_gmat_status
  let grePts : Nat := if gre = "COMPLETED" then 13
    else if gre = "IN_PROGRESS" then 6 else 0
  let exams_score := ieltsPts + grePts
  let exams_status :=
    if exams_score = 0 then "missing"
    else if exams_score ≥ 20 then "complete"
    else if exams_score ≥ 10 then "partial"
    else "weak"
  let sopN := normalize_status profile.sop_status
  let sop_score : Nat := if sopN = "COMPLETED" then 20
    else if sopN = "IN_PROGRESS" then 10 else 0
  let sop_status :=
    if sop_score = 0 then "missing"
    else if sop_score ≥ 15 then "ready"
    else "drafting"
  let documents_score : Nat := match profile.funding_plan with
    | some f => if f ≠ [] ∧ pyStrip f ≠ [] then 15 else 0
    | none => 0
  let documents_status :=
    if documents_score = 0 then "missing"
    else if documents_score ≥ 10 then "complete"
    else "partial"
  let countriesPts : Nat := match profile.preferred_countries with
    | some cs => if cs ≠ [] ∧ 0 < cs.length then 4 else 0
    | none => 0
  let budgetPts : Nat := match profile.budget_per_year with
    | some b => if b ≠ 0 ∧ 0 < b then 3 else 0
    | none => 0
  let fieldPts : Nat := match profile.field_of_study with
    | some f => if f ≠ [] ∧ pyStrip f ≠ [] then 3 else 0
    | none => 0
  let preferences_score := countriesPts + budgetPts + fieldPts
  let preferences_status :=
    if preferences_score = 0 then "missing"
    else if preferences_score ≥ 8 then "complete"
    else "partial"
  let total := academics_score + exams_score + sop_score + documents_score +
    preferences_score
  let next_actions : List String :=
    (if gpaPts = 0 then ["Add your GPA"] else []) ++
    (if degreePts = 0 then ["Add your degree"] else []) ++
    (if ieltsPts = 0 then ["Complete IELTS exam"] else []) ++
    (if grePts = 0 then ["Complete GRE/GMAT exam"] else []) ++
    (if sop_score = 0 then ["Complete your SOP"] else []) ++
    (if documents_score = 0 then ["Define your funding plan"] else []) ++
    (if countriesPts = 0 then ["Select preferred countries"] else [])
  { overall := total
    academics := ⟨academics_score, 30, academics_status⟩
    exams := ⟨exams_score, 25, exams_status⟩
    sop := ⟨sop_score, 20, sop_status⟩
    documents := ⟨documents_score, 15, documents_status⟩
    preferences := ⟨preferences_score, 10, preferences_status⟩
    next_actions := next_actions.take 3 }

/-- The scenario profile of the claim: GPA 9.2, degree MS, graduation
year 2024, all status fields COMPLETED, funding plan loan, preferred
countries USA; the fields the claim does not mention are NULL. -/
def scenarioProfile : UserProfileRow :=
  { gpa := some 9.2
    degree := some "MS".toList
    graduation_year := some 2024
    ielts_status := some "COMPLETED".toList
    gre_gmat_status := some "COMPLETED".toList
    sop_status := some "COMPLETED".toList
    funding_plan := some "loan".toList
    preferred_countries := some ["USA".toList] }

/-- The scenario profile with budget and field of study also present,
which is what it takes to reach the full 100 points. -/
def scenarioProfileFull : UserProfileRow :=
  { scenarioProfile with
    budget_per_year := some 20000
    field_of_study := some "CS".toList }

/-- The fixed alias table `COUNTRY_MAPPING` of src/database.py lines
11-22, in source order. -/
def COUNTRY_MAPPING : List (PyStr × PyStr) :=
  [("USA".toList, "United States".toList),
   ("US".toList, "United States".toList),
   ("United States".toList, "United States".toList),
   ("UK".toList, "United Kingdom".toList),
   ("United Kingdom".toList, "United Kingdom".toList),
   ("Great Britain".toList, "United Kingdom".toList),
   ("Canada".toList, "Canada".toList),
   ("Australia".toList, "Australia".toList),
   ("Germany".toList, "Germany".toList)]

/-- Embedding of `database.normalize_country` (src/database.py lines
24-40): falsy input gives the empty string, then an exact lookup on the
trimmed input, then a case-insensitive scan of the table using the
UNtrimmed input, then passthrough of the trimmed input.  No value of
the table is empty, so the Python truthiness test on the lookup result
is the same as a found-key test. -/
def normalize_country (country : PyStr) : PyStr :=
  if country = [] then []
  else
    match COUNTRY_MAPPING.find? (fun kv => kv.1 == pyStrip country) with
    | some kv => kv.2
    | none =>
      match COUNTRY_MAPPING.find? (fun kv => pyLower kv.1 == pyLower country) with
      | some kv => kv.2
      | none => pyStrip country

/-- `DEFAULT_COUNTRIES` of src/database.py line 83. -/
def DEFAULT_COUNTRIES : List PyStr :=
  ["USA".toList, "UK".toList, "Canada".toList, "Germany".toList, "Australia".toList]

/-- SQL `ORDER BY rank ASC NULLS LAST`: rank as a key in `WithTop Int`,
NULL being the top element. -/
def rankLE (x y : University) : Prop :=
  (x.rank.elim (⊤ : WithTop ℤ) (fun a => (a : WithTop ℤ))) ≤
    (y.rank.elim (⊤ : WithTop ℤ) (fun a => (a : WithTop ℤ)))

instance : DecidableRel rankLE := fun _ _ =>
  inferInstanceAs (Decidable (_ ≤ _))

instance : IsTotal University rankLE := ⟨fun _ _ => le_total _ _⟩

instance : IsTrans University rankLE := ⟨fun _ _ _ h1 h2 => le_trans h1 h2⟩

/-- Sorting used by both queries of `database.query_universities`. -/
def sortByRank (l : List University) : List University := l.insertionSort rankLE

/-- The country patterns built by the discovery branch of
`database.query_universities` (src/database.py lines 153-173): default
countries when none are given, normalization, dropping of empty
results, and a second fallback to the defaults when every
normalization came back empty.  The `%x%` wrapping is represented by
the patterns themselves; `ILIKE` matching is case-insensitive infix
matching. -/
def discoveryPatterns (countries : Option (List PyStr)) : List PyStr :=
  let cs := match countries with
    | none => DEFAULT_COUNTRIES
    | some l => if l = [] then DEFAULT_COUNTRIES else l
  let normalized := (cs.map normalize_country).filter (fun n => n ≠ [])
  if normalized = [] then DEFAULT_COUNTRIES else normalized

/-- The WHERE clause of the discovery query (src/database.py lines
174-207): `country ILIKE ANY(patterns)`, and `estimated_tuition_usd <=
max_budget` only when a positive budget was passed (SQL three-valued
logic drops rows with NULL tuition). -/
def discoveryMatch (countries : Option (List PyStr)) (max_budget : Option ℚ)
    (u : University) : Bool :=
  (discoveryPatterns countries).any
      (fun p => decide ((pyLower p) <:+: (pyLower u.country))) &&
    (match max_budget with
     | some b =>
       if b ≠ 0 ∧ 0 < b then
         match u.estimated_tuition_usd with
         | some t => decide (t ≤ b)
         | none => false
       else true
     | none => true)

/-- Embedding of `database.query_universities` (src/database.py lines
85-267) over a database given as the list of rows of the
`universities` table.  Shortlist mode fetches by ids; discovery mode
filters, orders by rank and limits, and falls back to the top 10 rows
of the whole table when the filtered query returns no rows. -/
def query_universities (db : List University) (countries : Option (List PyStr))
    (max_budget : Option ℚ) (university_ids : Option (List Nat))
    (limit : Nat) : List University :=
  match university_ids with
  | some ids =>
    if ids ≠ [] then sortByRank (db.filter (fun u => ids.contains u.id))
    else
      let filtered := (sortByRank (db.filter (discoveryMatch countries max_budget))).take limit
      if filtered = [] then (sortByRank db).take 10 else filtered
  | none =>
    let filtered := (sortByRank (db.filter (discoveryMatch countries max_budget))).take limit
    if filtered = [] then (sortByRank db).take 10 else filtered

/-- A one-row database whose only row matches no USA-with-budget
criteria. -/
def dbFrance : List University :=
  [{ id := 1, country := "France".toList, rank := some 10,
     competitiveness := some "MEDIUM", estimated_tuition_usd := some 100000 }]

/-- A row of the `shortlists` table. -/
structure SEntry where
  user_id : Nat
  university_id : Nat
  category : String := "TARGET"
  locked : Bool := false
deriving DecidableEq

/-- A row of the `tasks` table (only identity matters here). -/
structure TaskRow where
  user_id : Nat
  title : String := ""
deriving DecidableEq

/-- The persisted state the shortlist endpoints read and write:
`shortlists` rows, `tasks` rows, and `user_states` rows as pairs of
user id and current stage. -/
structure AppState where
  shortlists : List SEntry := []
  tasks : List TaskRow := []
  stages : List (Nat × String) := []
deriving DecidableEq

/-- The SQLAlchemy filter `user_id == u AND university_id == v`. -/
def isEntry (u v : Nat) (e : SEntry) : Bool :=
  e.user_id == u && e.university_id == v

/-- Apply `f` to the first element satisfying `p` (the `.first()` row of
a query, then mutated and committed). -/
def modifyFirst (p : α → Bool) (f : α → α) : List α → List α
  | [] => []
  | x :: xs => if p x then f x :: xs else x :: modifyFirst p f xs

/-- The bulk UPDATE of `crud.lock_university` / `main.update_shortlist`:
set `locked = false` on every row of the user that has `locked =
true`. -/
def unlockAll (l : List SEntry) (u : Nat) : List SEntry :=
  l.map (fun e => if e.user_id == u && e.locked then { e with locked := false } else e)

/-- Embedding of `crud.update_user_stage` (src/crud.py lines 81-95):
update the stage row of the user if present, insert it otherwise. -/
def update_user_stage (st : AppState) (u : Nat) (stage : String) : AppState :=
  match st.stages.find? (fun p => p.1 == u) with
  | some _ =>
    { st with stages := modifyFirst (fun p => p.1 == u) (fun p => (p.1, stage)) st.stages }
  | none => { st with stages := st.stages ++ [(u, stage)] }

/-- Embedding of `crud.clear_user_tasks` (src/crud.py lines 293-301):
delete every task row of the user. -/
def clear_user_tasks (st : AppState) (u : Nat) : AppState :=
  { st with tasks := st.tasks.filter (fun t => !(t.user_id == u)) }

/-- Embedding of `crud.add_to_shortlist` (src/crud.py lines 106-138):
UPSERT keyed on user and university; a truthy category argument
overwrites the category of an existing row; a new row gets the
category or the TARGET default, and is not locked. -/
def add_to_shortlist (st : AppState) (u v : Nat) (category : Option String) : AppState :=
  match st.shortlists.find? (isEntry u v) with
  | some _ =>
    match category with
    | some c =>
      if c ≠ "" then
        { st with shortlists := modifyFirst (isEntry u v) (fun e => { e with category := c }) st.shortlists }
      else st
    | none => st
  | none =>
    let cat := match category with
      | some c => if c = "" then "TARGET" else c
      | none => "TARGET"
    { st with shortlists :=
        st.shortlists ++ [{ user_id := u, university_id := v, category := cat, locked := false }] }

/-- Embedding of `crud.lock_university` (src/crud.py lines 140-169):
first unlock every locked row of the user, then lock the requested
row; when the row is absent the whole transaction is rolled back and a
ValueError is raised, so the caller keeps the unchanged state. -/
def lock_university (st : AppState) (u v : Nat) : Except String AppState :=
  let unlocked := unlockAll st.shortlists u
  match unlocked.find? (isEntry u v) with
  | none => .error "University not in shortlist"
  | some _ =>
    .ok { st with shortlists := modifyFirst (isEntry u v) (fun e => { e with locked := true }) unlocked }

/-- Valid categories accepted by the PATCH endpoint. -/
def VALID_CATEGORIES : List String := ["DREAM", "TARGET", "SAFE"]

/-- Embedding of the `main.update_shortlist` PATCH endpoint
(src/main.py lines 822-895).  An invalid category or a missing row
raises before any write; locking unlocks all other rows of the user
and moves the stage to LOCKED before setting the flag on the requested
row. -/
def update_shortlist (st : AppState) (u v : Nat) (category : Option String)
    (locked : Option Bool) : AppState :=
  let catInvalid := match category with
    | some c => c ≠ "" && !(VALID_CATEGORIES.contains c)
    | none => false
  if catInvalid then st
  else match st.shortlists.find? (isEntry u v) with
    | none => st
    | some _ =>
      let sl1 := match category with
        | some c =>
          if c ≠ "" then modifyFirst (isEntry u v) (fun e => { e with category := c }) st.shortlists
          else st.shortlists
        | none => st.shortlists
      match locked with
      | none => { st with shortlists := sl1 }
      | some true =>
        let st2 := update_user_stage { st with shortlists := unlockAll sl1 u } u "LOCKED"
        { st2 with shortlists := modifyFirst (isEntry u v) (fun e => { e with locked := true }) st2.shortlists }
      | some false =>
        { st with shortlists := modifyFirst (isEntry u v) (fun e => { e with locked := false }) sl1 }

/-- Embedding of the `main.remove_shortlist` POST endpoint (src/main.py
lines 758-812).  The first component is the raised error code, `none`
meaning success; the second is the state left in the database.  On a
locked row the endpoint commits `clear_user_tasks` and only then
raises, so the tasks deletion persists; on success it deletes the row
and, when the user has no rows left, moves the stage back to
DISCOVERY. -/
def remove_shortlist (st : AppState) (u v : Nat) : Option String × AppState :=
  match st.shortlists.find? (isEntry u v) with
  | none => (some "NOT_IN_SHORTLIST", st)
  | some e =>
    if e.locked then (some "UNIVERSITY_LOCKED", clear_user_tasks st u)
    else
      let st1 := { st with shortlists := st.shortlists.eraseP (isEntry u v) }
      let remaining : Nat := (st1.shortlists.filter (fun x => x.user_id == u)).length
      if remaining = 0 then (none, update_user_stage st1 u "DISCOVERY") else (none, st1)

/-- The shortlist mutations of the API, for reasoning about arbitrary
operation sequences. -/
inductive ShortlistOp where
  | add (u v : Nat) (category : Option String)
  | update (u v : Nat) (category : Option String) (locked : Option Bool)
  | lock (u v : Nat)
  | remove (u v : Nat)

/-- One endpoint call.  A raised error leaves the caller with the state
the handler had committed at that point (the unchanged state, except
for the tasks deletion of the locked-removal branch). -/
def applyOp (st : AppState) : ShortlistOp → AppState
  | .add u v c => add_to_shortlist st u v c
  | .update u v c l => update_shortlist st u v c l
  | .lock u v =>
    match lock_university st u v with
    | .ok s => s
    | .error _ => st
  | .remove u v => (remove_shortlist st u v).2

/-- A sequence of endpoint calls. -/
def runOps (ops : List ShortlistOp) (st : AppState) : AppState :=
  ops.foldl applyOp st

/-- Number of locked shortlist rows of a user. -/
def lockedCount (st : AppState) (u : Nat) : Nat :=
  st.shortlists.countP (fun e => e.user_id == u && e.locked)

/-- Current stage of a user, as read back from the state table. -/
def stageOf (st : AppState) (u : Nat) : Option String :=
  (st.stages.find? (fun p => p.1 == u)).map Prod.snd

/-- A state where user 1 holds a locked shortlist row and pending
tasks. -/
def lockedState : AppState :=
  { shortlists := [{ user_id := 1, university_id := 7, category := "TARGET", locked := true }]
    tasks := [{ user_id := 1, title := "Complete Statement of Purpose" }]
    stages := [(1, "LOCKED")] }

/-- A state where user 1 holds a single unlocked shortlist row, old
tasks, and stage SHORTLIST. -/
def lastEntryState : AppState :=
  { shortlists := [{ user_id := 1, university_id := 7, category := "TARGET", locked := false }]
    tasks := [{ user_id := 1, title := "Complete Statement of Purpose" }]
    stages := [(1, "SHORTLIST")] }

/-- The scored pool built by `scoring.categorize_universities` before
sorting. -/
def scoredPool (pool : List University) (gpa budget : ℚ) : List (University × ℚ) :=
  pool.map (fun uni => (uni, score_university gpa budget uni))

/-- The scored pool after the stable descending sort. -/
def sortedScoredPool (pool : List University) (gpa budget : ℚ) : List (University × ℚ) :=
  (scoredPool pool gpa budget).insertionSort scoreGE

theorem specPrestigeSubScore_bounds (r : Int) :
    20 ≤ specPrestigeSubScore r ∧ specPrestigeSubScore r ≤ 40 := by
  unfold specPrestigeSubScore
  split_ifs <;> norm_num

theorem specCostFitSubScore_bounds (b t : ℚ) :
    5 ≤ specCostFitSubScore b t ∧ specCostFitSubScore b t ≤ 30 := by
  unfold specCostFitSubScore
  split_ifs <;> norm_num

theorem specAcademicFitSubScore_bounds (tier : String) (s : ℚ) :
    10 ≤ specAcademicFitSubScore tier s ∧ specAcademicFitSubScore tier s ≤ 30 := by
  unfold specAcademicFitSubScore
  split_ifs <;> norm_num

/-- C2: the fit score is exactly the sum of the prestige, cost-fit and
academic-fit sub-scores of the specification (with a missing rank
treated as 500, a missing tuition as 0 and a missing competitiveness as
MEDIUM), it is a pure function of its inputs, and it always lies in
[0, 100]. -/
theorem fit_score_decomposition_and_bounds :
    ∀ (gpa budget : ℚ) (u : University),
      score_university gpa budget u =
        specPrestigeSubScore (u.rank.getD 500) +
          specCostFitSubScore budget (u.estimated_tuition_usd.getD 0) +
          specAcademicFitSubScore (u.competitiveness.getD "MEDIUM") gpa ∧
      0 ≤ score_university gpa budget u ∧ score_university gpa budget u ≤ 100 := by
  intro gpa budget u
  have e : score_university gpa budget u =
      specPrestigeSubScore (u.rank.getD 500) +
        specCostFitSubScore budget (u.estimated_tuition_usd.getD 0) +
        specAcademicFitSubScore (u.competitiveness.getD "MEDIUM") gpa := rfl
  have h1 := specPrestigeSubScore_bounds (u.rank.getD 500)
  have h2 := specCostFitSubScore_bounds budget (u.estimated_tuition_usd.getD 0)
  have h3 := specAcademicFitSubScore_bounds (u.competitiveness.getD "MEDIUM") gpa
  refine ⟨e, ?_, ?_⟩
  · rw [e]; linarith [h1.1, h2.1, h3.1]
  · rw [e]; linarith [h1.2, h2.2, h3.2]

/-- C3: the category chain of `categorize_universities` computes exactly
the fixed-priority tier rule of the specification, and any candidate
with rank at most 50 and competitiveness HIGH is always classified
DREAM; the chain takes no score input, so the assignment is independent
of the fit score. -/
theorem tier_rule_fixed_priority :
    (∀ (r : Int) (c : String), categoryOf r c = specTierRule r c) ∧
    (∀ u : University, u.rank.getD 500 ≤ 50 →
      u.competitiveness.getD "MEDIUM" = "HIGH" → uniCategory u = "DREAM") := by
  constructor
  · intro r c
    rfl
  · intro u h1 h2
    unfold uniCategory categoryOf
    rw [if_pos ⟨h1, h2⟩]

/-- Witness for C3 at a concrete candidate with rank 30 and HIGH
competitiveness. -/
theorem tier_rule_fixed_priority_witness :
    ({ rank := some 30, competitiveness := some "HIGH" } : University).rank.getD 500 ≤ 50 ∧
    uniCategory { rank := some 30, competitiveness := some "HIGH" } = "DREAM" :=
  ⟨by decide, tier_rule_fixed_priority.2 _ (by decide) rfl⟩

theorem filter_orderedInsert_score (c : ℚ) (x : University × ℚ) :
    ∀ l : List (University × ℚ),
      (List.orderedInsert scoreGE x l).filter (fun p => decide (p.2 = c)) =
        if x.2 = c then x :: l.filter (fun p => decide (p.2 = c))
        else l.filter (fun p => decide (p.2 = c))
  | [] => by
    by_cases hx : x.2 = c <;> simp [List.orderedInsert, hx]
  | y :: ys => by
    by_cases hr : scoreGE x y
    · rw [List.orderedInsert_of_le _ _ hr]
      by_cases hx : x.2 = c <;> simp [List.filter_cons, hx]
    · have hstep : List.orderedInsert scoreGE x (y :: ys) =
          y :: List.orderedInsert scoreGE x ys := by
        simp [List.orderedInsert, hr]
      have hxy : x.2 < y.2 := lt_of_not_le hr
      rw [hstep]
      by_cases hy : y.2 = c
      · have hx : ¬(x.2 = c) := by
          intro hx
          rw [hx, hy] at hxy
          exact lt_irrefl c hxy
        simp [List.filter_cons, hy, hx, filter_orderedInsert_score c x ys]
      · by_cases hx : x.2 = c <;>
          simp [List.filter_cons, hy, hx, filter_orderedInsert_score c x ys]

theorem filter_insertionSort_score (c : ℚ) :
    ∀ l : List (University × ℚ),
      (l.insertionSort scoreGE).filter (fun p => decide (p.2 = c)) =
        l.filter (fun p => decide (p.2 = c))
  | [] => rfl
  | x :: xs => by
    show (List.orderedInsert scoreGE x (xs.insertionSort scoreGE)).filter _ = _
    rw [filter_orderedInsert_score]
    by_cases hx : x.2 = c <;>
      simp [hx, filter_insertionSort_score c xs, List.filter_cons]

theorem uniCategory_cases (u : University) :
    uniCategory u = "DREAM" ∨ uniCategory u = "SAFE" ∨ uniCategory u = "TARGET" := by
  unfold uniCategory categoryOf
  split_ifs <;> simp

theorem catFold_eq :
    ∀ (l : List (University × ℚ)) (d t s : List University),
      catFold l d t s =
        ⟨d ++ ((l.map Prod.fst).filter
            (fun u => decide (uniCategory u = "DREAM"))).take (5 - d.length),
         t ++ ((l.map Prod.fst).filter
            (fun u => !decide (uniCategory u = "DREAM") &&
                      !decide (uniCategory u = "SAFE"))).take (5 - t.length),
         s ++ ((l.map Prod.fst).filter
            (fun u => decide (uniCategory u = "SAFE"))).take (5 - s.length)⟩
  | [], d, t, s => by simp [catFold]
  | (uni, q) :: rest, d, t, s => by
    simp only [catFold]
    by_cases hD : uniCategory uni = "DREAM"
    · have hS : ¬(uniCategory uni = "SAFE") := by rw [hD]; decide
      rw [if_pos hD]
      by_cases hlen : d.length < 5
      · rw [if_pos hlen, catFold_eq rest (d ++ [uni]) t s]
        have h5 : 5 - d.length = (5 - (d.length + 1)) + 1 := by omega
        simp [List.filter_cons, hD, hS, h5, List.take_succ_cons]
      · rw [if_neg hlen, catFold_eq rest d t s]
        have h0 : 5 - d.length = 0 := by omega
        simp [List.filter_cons, hD, hS, h0]
    · rw [if_neg hD]
      by_cases hS : uniCategory uni = "SAFE"
      · rw [if_pos hS]
        by_cases hlen : s.length < 5
        · rw [if_pos hlen, catFold_eq rest d t (s ++ [uni])]
          have h5 : 5 - s.length = (5 - (s.length + 1)) + 1 := by omega
          simp [List.filter_cons, hD, hS, h5, List.take_succ_cons]
        · rw [if_neg hlen, catFold_eq rest d t s]
          have h0 : 5 - s.length = 0 := by omega
          simp [List.filter_cons, hD, hS, h0]
      · rw [if_neg hS]
        by_cases hlen : t.length < 5
        · rw [if_pos hlen, catFold_eq rest d (t ++ [uni]) s]
          have h5 : 5 - t.length = (5 - (t.length + 1)) + 1 := by omega
          simp [List.filter_cons, hD, hS, h5, List.take_succ_cons]
        · rw [if_neg hlen, catFold_eq rest d t s]
          have h0 : 5 - t.length = 0 := by omega
          simp [List.filter_cons, hD, hS, h0]

theorem target_filter_eq (l : List University) :
    l.filter (fun u => !decide (uniCategory u = "DREAM") &&
        !decide (uniCategory u = "SAFE")) =
      l.filter (fun u => decide (uniCategory u = "TARGET")) := by
  apply List.filter_congr
  intro u _
  rcases uniCategory_cases u with h | h | h <;> rw [h] <;> decide

/-- C4: each tier list of the classifier output is the first at most 5
candidates of that tier in the pool sorted by fit score descending; the
sort is a permutation of the scored pool, is sorted descending, and
keeps candidates of equal score in their original input order; each
list has length at most 5 (overflow is dropped, not redistributed), and
an empty pool yields three empty lists. -/
theorem classifier_caps_sort_and_drop :
    ∀ (pool : List University) (gpa budget : ℚ),
      (categorize_universities pool gpa budget).dream =
        (((sortedScoredPool pool gpa budget).map Prod.fst).filter
          (fun u => decide (uniCategory u = "DREAM"))).take 5 ∧
      (categorize_universities pool gpa budget).target =
        (((sortedScoredPool pool gpa budget).map Prod.fst).filter
          (fun u => decide (uniCategory u = "TARGET"))).take 5 ∧
      (categorize_universities pool gpa budget).safe =
        (((sortedScoredPool pool gpa budget).map Prod.fst).filter
          (fun u => decide (uniCategory u = "SAFE"))).take 5 ∧
      (categorize_universities pool gpa budget).dream.length ≤ 5 ∧
      (categorize_universities pool gpa budget).target.length ≤ 5 ∧
      (categorize_universities pool gpa budget).safe.length ≤ 5 ∧
      (sortedScoredPool pool gpa budget).Sorted scoreGE ∧
      (sortedScoredPool pool gpa budget).Perm (scoredPool pool gpa budget) ∧
      (∀ c : ℚ, (sortedScoredPool pool gpa budget).filter (fun p => decide (p.2 = c)) =
        (scoredPool pool gpa budget).filter (fun p => decide (p.2 = c))) ∧
      categorize_universities [] gpa budget = ⟨[], [], []⟩ := by
  intro pool gpa budget
  have hc : categorize_universities pool gpa budget =
      catFold (sortedScoredPool pool gpa budget) [] [] [] := rfl
  have he := catFold_eq (sortedScoredPool pool gpa budget) [] [] []
  rw [hc, he]
  refine ⟨by simp, by simp [target_filter_eq], by simp, ?_, ?_, ?_, ?_, ?_, ?_, rfl⟩
  · simp [List.length_take]
  · simp [List.length_take]
  · simp [List.length_take]
  · exact List.sorted_insertionSort scoreGE _
  · exact List.perm_insertionSort scoreGE _
  · intro c
    exact filter_insertionSort_score c _

theorem inProgress_not_completed : ∀ x : PyStr, x ∈ inProgressSyn → x ∉ completedSyn := by
  intro x h
  fin_cases h <;> decide

theorem notStarted_not_completed : ∀ x : PyStr, x ∈ notStartedSyn → x ∉ completedSyn := by
  intro x h
  fin_cases h <;> decide

theorem notStarted_not_inProgress : ∀ x : PyStr, x ∈ notStartedSyn → x ∉ inProgressSyn := by
  intro x h
  fin_cases h <;> decide

/-- C5: `normalize_status` is total on nullable strings, always lands in
the three-value enumeration, maps NULL and blank input to NOT_STARTED,
maps the recognized synonym sets (after lowercasing and trimming) to
their buckets, and maps every other non-blank value to IN_PROGRESS. -/
theorem normalize_status_total_coverage :
    ∀ status : Option PyStr,
      (normalize_status status = "NOT_STARTED" ∨
       normalize_status status = "IN_PROGRESS" ∨
       normalize_status status = "COMPLETED") ∧
      (status = none → normalize_status status = "NOT_STARTED") ∧
      (∀ s, status = some s → pyStrip s = [] →
        normalize_status status = "NOT_STARTED") ∧
      (∀ s, status = some s → pyStrip s ≠ [] →
        (pyStrip (pyLower s) ∈ completedSyn →
          normalize_status status = "COMPLETED") ∧
        (pyStrip (pyLower s) ∈ inProgressSyn →
          normalize_status status = "IN_PROGRESS") ∧
        (pyStrip (pyLower s) ∈ notStartedSyn →
          normalize_status status = "NOT_STARTED") ∧
        (pyStrip (pyLower s) ∉ completedSyn →
          pyStrip (pyLower s) ∉ inProgressSyn →
          pyStrip (pyLower s) ∉ notStartedSyn →
          normalize_status status = "IN_PROGRESS")) := by
  intro status
  refine ⟨?_, ?_, ?_, ?_⟩
  · cases status with
    | none => exact Or.inl rfl
    | some s =>
      simp only [normalize_status]
      split_ifs <;> simp
  · intro h
    subst h
    rfl
  · intro s hs hstrip
    subst hs
    simp [normalize_status, hstrip]
  · intro s hs hstrip
    subst hs
    have hblank : ¬(s = [] ∨ pyStrip s = []) := by
      rintro (h | h)
      · exact hstrip (by rw [h]; rfl)
      · exact hstrip h
    refine ⟨?_, ?_, ?_, ?_⟩
    · intro hmem
      simp only [normalize_status]
      rw [if_neg hblank, if_pos hmem]
    · intro hmem
      have hc := inProgress_not_completed _ hmem
      simp only [normalize_status]
      rw [if_neg hblank, if_neg hc, if_pos hmem]
    · intro hmem
      have hc := notStarted_not_completed _ hmem
      have hi := notStarted_not_inProgress _ hmem
      simp only [normalize_status]
      rw [if_neg hblank, if_neg hc, if_neg hi, if_pos hmem]
    · intro h1 h2 h3
      simp only [normalize_status]
      rw [if_neg hblank, if_neg h1, if_neg h2, if_neg h3]

/-- Witness for C5 at concrete inputs: a completed synonym with mixed
case and trailing blank, and an unrecognized non-empty value. -/
theorem normalize_status_total_coverage_witness :
    normalize_status (some "Done ".toList) = "COMPLETED" ∧
    normalize_status (some "reviewing".toList) = "IN_PROGRESS" :=
  ⟨((normalize_status_total_coverage (some "Done ".toList)).2.2.2
      _ rfl (by decide)).1 (by decide),
   (((normalize_status_total_coverage (some "reviewing".toList)).2.2.2
      _ rfl (by decide)).2.2.2 (by decide) (by decide) (by decide))⟩

theorem scenario_profile_eval :
    calculate_profile_strength scenarioProfile =
      ⟨94, ⟨30, 30, "strong"⟩, ⟨25, 25, "complete"⟩, ⟨20, 20, "ready"⟩,
        ⟨15, 15, "complete"⟩, ⟨4, 10, "partial"⟩, []⟩ := by
  have h1 : ¬((9.2 : ℚ) = 0) := by norm_num
  have h2 : (0 : ℚ) < 9.2 := by norm_num
  simp only [calculate_profile_strength, scenarioProfile, ne_eq, h1, h2,
    not_false_eq_true, and_self, and_true, true_and, if_true]
  decide

theorem scenario_profile_full_eval :
    calculate_profile_strength scenarioProfileFull =
      ⟨100, ⟨30, 30, "strong"⟩, ⟨25, 25, "complete"⟩, ⟨20, 20, "ready"⟩,
        ⟨15, 15, "complete"⟩, ⟨10, 10, "complete"⟩, []⟩ := by
  have h1 : ¬((9.2 : ℚ) = 0) := by norm_num
  have h2 : (0 : ℚ) < 9.2 := by norm_num
  simp only [calculate_profile_strength, scenarioProfileFull, scenarioProfile,
    ne_eq, h1, h2, not_false_eq_true, and_self, and_true, true_and, if_true]
  decide

/-- C6 counterexample: for the exact scenario profile of the claim (GPA
9.2, degree MS, graduation year 2024, all status fields COMPLETED,
funding plan loan, preferred countries USA, nothing else set) the
overall score is 94, not 100, and the exams section status is not
strong, so the claimed universal statement fails at this profile. -/
theorem profile_strength_scenario_counterexample :
    (calculate_profile_strength scenarioProfile).overall ≠ 100 ∧
    (calculate_profile_strength scenarioProfile).exams.status ≠ "strong" := by
  rw [scenario_profile_eval]
  decide

/-- Parametric evaluation of the scenario profile: with the six fixed
scenario fields, the overall score is 94 plus 3 for a truthy positive
budget plus 3 for a truthy non-blank field of study. -/
theorem scenario_overall_param (b : Option Int) (f : Option PyStr) :
    (calculate_profile_strength
      { scenarioProfile with budget_per_year := b, field_of_study := f }).overall =
      94 + (match b with
            | some x => if x ≠ 0 ∧ 0 < x then 3 else 0
            | none => 0) +
          (match f with
            | some s => if s ≠ [] ∧ pyStrip s ≠ [] then 3 else 0
            | none => 0) := by
  have h1 : ¬((9.2 : ℚ) = 0) := by norm_num
  have h2 : (0 : ℚ) < 9.2 := by norm_num
  have hMS : ("MS".toList ≠ [] ∧ pyStrip "MS".toList ≠ []) := by decide
  have hloan : ("loan".toList ≠ [] ∧ pyStrip "loan".toList ≠ []) := by decide
  have hUSA : ((["USA".toList] : List PyStr) ≠ [] ∧
      0 < (["USA".toList] : List PyStr).length) := by decide
  have hyear : ((2024 : Int) ≠ 0 ∧ (0 : Int) < 2024) := by decide
  have hCOMP : normalize_status (some "COMPLETED".toList) = "COMPLETED" := rfl
  simp only [calculate_profile_strength, scenarioProfile, hCOMP, ne_eq, h1, h2, hMS.1,
    hMS.2, hloan.1, hloan.2, hUSA.1, hUSA.2, hyear.1, hyear.2, not_false_eq_true,
    and_self, and_true, true_and, if_true]
  rcases b with _ | x <;> rcases f with _ | s <;> dsimp only <;> split_ifs <;> omega

/-- C6 amended: on the scenario profile the evaluation returns overall
94 with section statuses strong (academics), complete (exams), ready
(SOP), complete (documents) and partial (preferences); the status
labels are section-specific, not the uniform ratio rule of the claim;
and for every value of the two remaining fields the overall score is
100 exactly when the budget is present and positive and the field of
study is present and non-blank, the preferences status then being
complete. -/
theorem profile_strength_scenario_amended :
    (calculate_profile_strength scenarioProfile).overall = 94 ∧
    (calculate_profile_strength scenarioProfile).academics = ⟨30, 30, "strong"⟩ ∧
    (calculate_profile_strength scenarioProfile).exams = ⟨25, 25, "complete"⟩ ∧
    (calculate_profile_strength scenarioProfile).sop = ⟨20, 20, "ready"⟩ ∧
    (calculate_profile_strength scenarioProfile).documents = ⟨15, 15, "complete"⟩ ∧
    (calculate_profile_strength scenarioProfile).preferences = ⟨4, 10, "partial"⟩ ∧
    (∀ (b : Option Int) (f : Option PyStr),
      (calculate_profile_strength
        { scenarioProfile with budget_per_year := b, field_of_study := f }).overall = 100 ↔
      (∃ x, b = some x ∧ x ≠ 0 ∧ 0 < x) ∧
      (∃ s, f = some s ∧ s ≠ [] ∧ pyStrip s ≠ [])) ∧
    (calculate_profile_strength scenarioProfileFull).overall = 100 ∧
    (calculate_profile_strength scenarioProfileFull).preferences = ⟨10, 10, "complete"⟩ := by
  have he := scenario_profile_eval
  have hfu := scenario_profile_full_eval
  refine ⟨by rw [he], by rw [he], by rw [he], by rw [he], by rw [he], by rw [he],
    ?_, by rw [hfu], by rw [hfu]⟩
  intro b f
  rw [scenario_overall_param b f]
  constructor
  · intro h
    rcases b with _ | x <;> rcases f with _ | s <;> dsimp only at h
    · exfalso
      omega
    · split_ifs at h
      · exfalso
        omega
      · exfalso
        omega
    · split_ifs at h
      · exfalso
        omega
      · exfalso
        omega
    · split_ifs at h with hx hs
      · exact ⟨⟨x, rfl, hx⟩, ⟨s, rfl, hs⟩⟩
      all_goals
        exfalso
        omega
  · rintro ⟨⟨x, rfl, hx⟩, ⟨s, rfl, hs⟩⟩
    dsimp only
    rw [if_pos hx, if_pos hs]

theorem normalize_country_fixed_values :
    ∀ kv, kv ∈ COUNTRY_MAPPING → normalize_country kv.2 = kv.2 := by
  decide

/-- C9 counterexample: the normalizer is not idempotent on every string.
On the input with a trailing blank the first pass returns the trimmed
passthrough (the exact lookup is case-sensitive and the case-insensitive
scan uses the untrimmed input), while the second pass then matches the
alias table, so applying the function twice changes the result. -/
theorem normalize_country_not_idempotent :
    normalize_country (normalize_country "usa ".toList) ≠
      normalize_country "usa ".toList ∧
    normalize_country "usa ".toList = "usa".toList ∧
    normalize_country (normalize_country "usa ".toList) = "United States".toList := by
  decide

/-- C9 amended: the normalizer is total (it always returns a string, by
construction), every canonical token of the alias table is returned
unchanged, and it is idempotent on every input that carries no leading
or trailing whitespace; idempotence fails only on untrimmed aliases
such as the counterexample input. -/
theorem normalize_country_idempotent_on_trimmed :
    (∀ c : PyStr, c ∈ COUNTRY_MAPPING.map Prod.snd → normalize_country c = c) ∧
    (∀ s : PyStr, pyStrip s = s →
      normalize_country (normalize_country s) = normalize_country s) := by
  constructor
  · intro c hc
    obtain ⟨kv, hkv, hsnd⟩ := List.mem_map.mp hc
    rw [← hsnd]
    exact normalize_country_fixed_values kv hkv
  · intro s hs
    by_cases h0 : s = []
    · subst h0
      rfl
    · rcases h1 : COUNTRY_MAPPING.find? (fun kv => kv.1 == pyStrip s) with _ | kv1
      · rcases h2 : COUNTRY_MAPPING.find? (fun kv => pyLower kv.1 == pyLower s) with _ | kv2
        · have hn : normalize_country s = s := by
            rw [normalize_country, if_neg h0, h1, h2, hs]
          rw [hn]
          exact hn
        · have hn : normalize_country s = kv2.2 := by
            rw [normalize_country, if_neg h0, h1, h2]
          rw [hn]
          exact normalize_country_fixed_values kv2 (List.mem_of_find?_eq_some h2)
      · have hn : normalize_country s = kv1.2 := by
          rw [normalize_country, if_neg h0, h1]
        rw [hn]
        exact normalize_country_fixed_values kv1 (List.mem_of_find?_eq_some h1)

/-- Witness for C9 amended at a canonical token and at a trimmed
input. -/
theorem normalize_country_idempotent_on_trimmed_witness :
    normalize_country "Canada".toList = "Canada".toList ∧
    normalize_country (normalize_country "hello".toList) =
      normalize_country "hello".toList :=
  ⟨normalize_country_idempotent_on_trimmed.1 _ (by decide),
   normalize_country_idempotent_on_trimmed.2 _ (by decide)⟩

/-- C7 counterexample: a one-row database where nothing matches the
criteria (country USA, budget 1000).  The filtered query is empty, yet
the operation does not return the empty sequence: the failsafe fallback
returns the top-ranked rows of the whole table. -/
theorem query_no_match_returns_fallback :
    dbFrance.filter (discoveryMatch (some ["USA".toList]) (some 1000)) = [] ∧
    query_universities dbFrance (some ["USA".toList]) (some 1000) none 20 = dbFrance ∧
    dbFrance ≠ [] := by
  decide

/-- C7 amended: when no row matches the criteria, the fetch returns the
top 10 rows of the whole table ordered by rank ascending (nulls last)
instead of the empty sequence; it returns the empty sequence exactly
when the table itself is empty, and (being a total function) it never
raises for no rows found. -/
theorem query_fallback_amended :
    ∀ (db : List University) (countries : Option (List PyStr)) (mb : Option ℚ)
      (limit : Nat),
      (db.filter (discoveryMatch countries mb) = [] →
        query_universities db countries mb none limit = (sortByRank db).take 10) ∧
      (query_universities db countries mb none limit = [] ↔ db = []) := by
  intro db countries mb limit
  have hq : query_universities db countries mb none limit =
      (if ((sortByRank (db.filter (discoveryMatch countries mb))).take limit) = []
       then (sortByRank db).take 10
       else (sortByRank (db.filter (discoveryMatch countries mb))).take limit) := rfl
  constructor
  · intro h
    rw [hq, h]
    simp [sortByRank, List.insertionSort]
  · constructor
    · intro h
      by_cases hdb : db = []
      · exact hdb
      · exfalso
        have hdblen : 0 < db.length := List.length_pos.mpr hdb
        by_cases hf : ((sortByRank (db.filter (discoveryMatch countries mb))).take limit) = []
        · rw [hq, if_pos hf] at h
          have h10 : ((sortByRank db).take 10).length = min 10 (sortByRank db).length :=
            List.length_take _ _
          rw [h] at h10
          have hlen : (sortByRank db).length = db.length := by
            unfold sortByRank
            exact List.length_insertionSort _ _
          rw [hlen] at h10
          simp at h10
          omega
        · rw [hq, if_neg hf] at h
          exact hf h
    · intro h
      subst h
      rw [hq]
      simp [sortByRank, List.insertionSort]

/-- Witness for C7 amended at the concrete no-match database and at the
empty database. -/
theorem query_fallback_amended_witness :
    query_universities dbFrance (some ["USA".toList]) (some 1000) none 20 =
      (sortByRank dbFrance).take 10 ∧
    query_universities [] none none none 5 = [] :=
  ⟨(query_fallback_amended dbFrance (some ["USA".toList]) (some 1000) 20).1 (by decide),
   (query_fallback_amended [] none none 5).2.mpr rfl⟩

theorem countP_modifyFirst_le {α : Type} (m : α → Bool) (f : α → α) (p : α → Bool) :
    ∀ l : List α, (modifyFirst m f l).countP p ≤ l.countP p + 1
  | [] => by simp [modifyFirst]
  | x :: xs => by
    by_cases hm : m x
    · simp only [modifyFirst, if_pos hm, List.countP_cons]
      split_ifs <;> omega
    · simp only [modifyFirst, if_neg hm, List.countP_cons]
      have := countP_modifyFirst_le m f p xs
      omega

theorem countP_modifyFirst_le_of {α : Type} (m : α → Bool) (f : α → α) (p : α → Bool)
    (h : ∀ x, m x = true → p (f x) = true → p x = true) :
    ∀ l : List α, (modifyFirst m f l).countP p ≤ l.countP p
  | [] => by simp [modifyFirst]
  | x :: xs => by
    by_cases hm : m x
    · simp only [modifyFirst, if_pos hm, List.countP_cons]
      by_cases hp : p (f x)
      · rw [if_pos hp, if_pos (h x hm hp)]
      · rw [if_neg hp]
        split_ifs <;> omega
    · simp only [modifyFirst, if_neg hm, List.countP_cons]
      have := countP_modifyFirst_le_of m f p h xs
      omega

theorem countP_modifyFirst_eq_of {α : Type} (m : α → Bool) (f : α → α) (p : α → Bool)
    (h : ∀ x, m x = true → p (f x) = p x) :
    ∀ l : List α, (modifyFirst m f l).countP p = l.countP p
  | [] => by simp [modifyFirst]
  | x :: xs => by
    by_cases hm : m x
    · simp only [modifyFirst, if_pos hm, List.countP_cons, h x hm]
    · simp only [modifyFirst, if_neg hm, List.countP_cons,
        countP_modifyFirst_eq_of m f p h xs]

theorem countP_eraseP_le {α : Type} (m : α → Bool) (p : α → Bool) :
    ∀ l : List α, (l.eraseP m).countP p ≤ l.countP p
  | [] => by simp
  | x :: xs => by
    by_cases hm : m x
    · simp only [List.eraseP_cons, hm, cond_true, List.countP_cons]
      split_ifs <;> omega
    · simp only [List.eraseP_cons, hm, cond_false, List.countP_cons]
      have := countP_eraseP_le m p xs
      omega

theorem countP_unlockAll_self (l : List SEntry) (u : Nat) :
    (unlockAll l u).countP (fun e => e.user_id == u && e.locked) = 0 := by
  rw [List.countP_eq_zero]
  intro a ha
  obtain ⟨e, _, rfl⟩ := List.mem_map.mp ha
  by_cases h : e.user_id == u && e.locked
  · simp [h]
  · simp only [if_neg h]
    simpa using h

theorem countP_unlockAll_other (l : List SEntry) (u w : Nat) (hw : w ≠ u) :
    (unlockAll l u).countP (fun e => e.user_id == w && e.locked) =
      l.countP (fun e => e.user_id == w && e.locked) := by
  unfold unlockAll
  rw [List.countP_map]
  apply List.countP_congr
  intro e _
  simp only [Function.comp_apply]
  by_cases h : (e.user_id == u && e.locked) = true
  · have h' : e.user_id = u ∧ e.locked = true := by simpa using h
    have hne : (e.user_id == w) = false := by
      rw [h'.1]
      exact beq_eq_false_iff_ne.mpr (fun hh => hw hh.symm)
    rw [if_pos h]
    simp [hne]
  · rw [if_neg h]

theorem shortlists_update_user_stage (st : AppState) (u : Nat) (s : String) :
    (update_user_stage st u s).shortlists = st.shortlists := by
  unfold update_user_stage
  cases st.stages.find? (fun p => p.1 == u) <;> rfl

theorem tasks_update_user_stage (st : AppState) (u : Nat) (s : String) :
    (update_user_stage st u s).tasks = st.tasks := by
  unfold update_user_stage
  cases st.stages.find? (fun p => p.1 == u) <;> rfl

theorem lock_university_spec (st : AppState) (u v : Nat) (st' : AppState)
    (hok : lock_university st u v = Except.ok st') :
    st'.shortlists =
      modifyFirst (isEntry u v) (fun e => { e with locked := true })
        (unlockAll st.shortlists u) ∧
    lockedCount st' u ≤ 1 ∧
    ∀ w, w ≠ u → lockedCount st' w = lockedCount st w := by
  rcases hf : (unlockAll st.shortlists u).find? (isEntry u v) with _ | e
  · simp only [lock_university, hf] at hok
    exact Except.noConfusion hok
  · simp only [lock_university, hf] at hok
    cases hok
    refine ⟨rfl, ?_, ?_⟩
    · have h1 := countP_modifyFirst_le (isEntry u v)
        (fun e => { e with locked := true })
        (fun e => e.user_id == u && e.locked) (unlockAll st.shortlists u)
      have h2 := countP_unlockAll_self st.shortlists u
      unfold lockedCount
      dsimp only
      omega
    · intro w hw
      unfold lockedCount
      dsimp only
      have heq := countP_modifyFirst_eq_of (isEntry u v)
        (fun e => { e with locked := true })
        (fun e => e.user_id == w && e.locked) ?_ (unlockAll st.shortlists u)
      · rw [heq, countP_unlockAll_other _ _ _ hw]
      · intro x hx
        have hxu : x.user_id = u := by
          simp [isEntry] at hx
          exact hx.1
        have hne : (x.user_id == w) = false := by
          rw [hxu]
          exact beq_eq_false_iff_ne.mpr (fun hh => hw hh.symm)
        simp [hne]

theorem modifyLockTrue_countP_other (l : List SEntry) (u v w : Nat) (hw : w ≠ u) :
    (modifyFirst (isEntry u v) (fun e => { e with locked := true }) l).countP
        (fun e => e.user_id == w && e.locked) =
      l.countP (fun e => e.user_id == w && e.locked) := by
  apply countP_modifyFirst_eq_of
  intro x hx
  have hxu : x.user_id = u := by
    simp [isEntry] at hx
    exact hx.1
  have hne : (x.user_id == w) = false := by
    rw [hxu]
    exact beq_eq_false_iff_ne.mpr (fun hh => hw hh.symm)
  simp [hne]

theorem lockedCount_add_to_shortlist (st : AppState) (u v : Nat) (c : Option String)
    (w : Nat) : lockedCount (add_to_shortlist st u v c) w = lockedCount st w := by
  unfold add_to_shortlist
  rcases hf : st.shortlists.find? (isEntry u v) with _ | e
  · simp only [hf]
    unfold lockedCount
    dsimp only
    rw [List.countP_append]
    simp
  · simp only [hf]
    cases c with
    | none => rfl
    | some cat =>
      dsimp only
      by_cases hc : cat ≠ ""
      · rw [if_pos hc]
        unfold lockedCount
        dsimp only
        exact countP_modifyFirst_eq_of (isEntry u v)
          (fun e => { e with category := cat })
          (fun e => e.user_id == w && e.locked) (fun x _ => rfl) st.shortlists
      · rw [if_neg hc]

theorem lockedCount_update_shortlist (st : AppState) (u v : Nat) (c : Option String)
    (lk : Option Bool) (h1 : ∀ w, lockedCount st w ≤ 1) (w : Nat) :
    lockedCount (update_shortlist st u v c lk) w ≤ 1 := by
  unfold update_shortlist
  by_cases hci : (match c with
      | some c => c ≠ "" && !(VALID_CATEGORIES.contains c)
      | none => false) = true
  · rw [if_pos hci]
    exact h1 w
  · rw [if_neg hci]
    rcases hf : st.shortlists.find? (isEntry u v) with _ | e
    · simp only [hf]
      exact h1 w
    · simp only [hf]
      generalize hSL : (match c with
        | some cc =>
          if cc ≠ "" then
            modifyFirst (isEntry u v) (fun e => { e with category := cc }) st.shortlists
          else st.shortlists
        | none => st.shortlists) = SL1
      have hsl1 : ∀ w' : Nat,
          SL1.countP (fun e => e.user_id == w' && e.locked) =
            st.shortlists.countP (fun e => e.user_id == w' && e.locked) := by
        intro w'
        rw [← hSL]
        cases c with
        | none => rfl
        | some cc =>
          dsimp only
          by_cases hcc : cc ≠ ""
          · rw [if_pos hcc]
            exact countP_modifyFirst_eq_of (isEntry u v)
              (fun e => { e with category := cc })
              (fun e => e.user_id == w' && e.locked) (fun x _ => rfl) st.shortlists
          · rw [if_neg hcc]
      cases lk with
      | none =>
        unfold lockedCount
        dsimp only
        rw [hsl1]
        exact h1 w
      | some b =>
        cases b with
        | true =>
          unfold lockedCount
          dsimp only
          rw [shortlists_update_user_stage]
          dsimp only
          by_cases hw : w = u
          · subst hw
            have hle := countP_modifyFirst_le (isEntry w v)
              (fun e => { e with locked := true })
              (fun e => e.user_id == w && e.locked) (unlockAll SL1 w)
            have h0 := countP_unlockAll_self SL1 w
            omega
          · rw [modifyLockTrue_countP_other _ u v w hw,
              countP_unlockAll_other _ _ _ hw, hsl1]
            exact h1 w
        | false =>
          unfold lockedCount
          dsimp only
          have hle := countP_modifyFirst_le_of (isEntry u v)
            (fun e => { e with locked := false })
            (fun e => e.user_id == w && e.locked)
            (fun x _ hpf => absurd hpf (by simp)) SL1
          rw [hsl1] at hle
          exact le_trans hle (h1 w)

theorem lockedCount_remove_shortlist (st : AppState) (u v : Nat) (w : Nat) :
    lockedCount (remove_shortlist st u v).2 w ≤ lockedCount st w := by
  unfold remove_shortlist
  rcases hf : st.shortlists.find? (isEntry u v) with _ | e
  · simp only [hf]
    exact le_refl _
  · simp only [hf]
    by_cases hl : e.locked
    · rw [if_pos hl]
      exact le_refl _
    · rw [if_neg hl]
      split_ifs with hr
      · unfold lockedCount
        dsimp only
        rw [shortlists_update_user_stage]
        dsimp only
        exact countP_eraseP_le _ _ _
      · unfold lockedCount
        dsimp only
        exact countP_eraseP_le _ _ _

theorem applyOp_locked_le (st : AppState) (op : ShortlistOp)
    (h : ∀ w, lockedCount st w ≤ 1) (w : Nat) :
    lockedCount (applyOp st op) w ≤ 1 := by
  cases op with
  | add u v c =>
    show lockedCount (add_to_shortlist st u v c) w ≤ 1
    rw [lockedCount_add_to_shortlist]
    exact h w
  | update u v c lk => exact lockedCount_update_shortlist st u v c lk h w
  | lock u v =>
    show lockedCount (match lock_university st u v with
      | .ok s => s
      | .error _ => st) w ≤ 1
    rcases hk : lock_university st u v with e | s'
    · exact h w
    · rcases lock_university_spec st u v s' hk with ⟨_, h2, h3⟩
      by_cases hw : w = u
      · subst hw
        exact h2
      · rw [h3 w hw]
        exact h w
  | remove u v =>
    show lockedCount (remove_shortlist st u v).2 w ≤ 1
    exact le_trans (lockedCount_remove_shortlist st u v w) (h w)

theorem runOps_locked_le :
    ∀ (ops : List ShortlistOp) (st : AppState),
      (∀ w, lockedCount st w ≤ 1) → ∀ w, lockedCount (runOps ops st) w ≤ 1
  | [], _, h, w => h w
  | op :: ops, st, h, w =>
    runOps_locked_le ops (applyOp st op) (fun w' => applyOp_locked_le st op h w') w

/-- C1: the lock operation first unlocks every entry of the user and
only then locks the selected one, and whenever a lock completes
successfully the user has at most one locked entry; consequently, after
every sequence of shortlist mutations (add, update, lock, remove)
starting from an empty store, every user has at most one locked entry
at every point. -/
theorem lock_mutual_exclusion :
    (∀ (st : AppState) (u v : Nat) (st' : AppState),
      lock_university st u v = Except.ok st' →
        st'.shortlists =
          modifyFirst (isEntry u v) (fun e => { e with locked := true })
            (unlockAll st.shortlists u) ∧
        lockedCount st' u ≤ 1) ∧
    (∀ (ops : List ShortlistOp) (u : Nat),
      lockedCount (runOps ops ⟨[], [], []⟩) u ≤ 1) := by
  constructor
  · intro st u v st' hok
    have hs := lock_university_spec st u v st' hok
    exact ⟨hs.1, hs.2.1⟩
  · intro ops u
    apply runOps_locked_le
    intro w
    exact Nat.zero_le 1

/-- Witness for C1 at a concrete two-entry state where another entry is
already locked: locking entry 7 leaves exactly one locked entry. -/
theorem lock_mutual_exclusion_witness :
    lockedCount ⟨[⟨1, 7, "TARGET", true⟩, ⟨1, 8, "TARGET", false⟩], [], []⟩ 1 ≤ 1 :=
  (lock_mutual_exclusion.1
    ⟨[⟨1, 7, "TARGET", false⟩, ⟨1, 8, "TARGET", true⟩], [], []⟩ 1 7
    ⟨[⟨1, 7, "TARGET", true⟩, ⟨1, 8, "TARGET", false⟩], [], []⟩ rfl).2

theorem find?_stage_append_none (l : List (Nat × String)) (u : Nat) (s : String)
    (h : l.find? (fun p => p.1 == u) = none) :
    (l ++ [(u, s)]).find? (fun p => p.1 == u) = some (u, s) := by
  induction l with
  | nil => simp
  | cons x xs ih =>
    by_cases hx : (x.1 == u) = true
    · rw [@List.find?_cons_of_pos _ (fun p => p.1 == u) x xs hx] at h
      exact absurd h (by simp)
    · have hx' : ¬(x.1 == u) = true := hx
      rw [@List.find?_cons_of_neg _ (fun p => p.1 == u) x xs hx'] at h
      rw [List.cons_append,
        @List.find?_cons_of_neg _ (fun p => p.1 == u) x (xs ++ [(u, s)]) hx']
      exact ih h

theorem find?_stage_modifyFirst (l : List (Nat × String)) (u : Nat) (s : String)
    (p0 : Nat × String) (h : l.find? (fun p => p.1 == u) = some p0) :
    (modifyFirst (fun p => p.1 == u) (fun p => (p.1, s)) l).find?
      (fun p => p.1 == u) = some (p0.1, s) := by
  induction l with
  | nil => simp at h
  | cons x xs ih =>
    by_cases hx : (x.1 == u) = true
    · rw [@List.find?_cons_of_pos _ (fun p => p.1 == u) x xs hx] at h
      injection h with h'
      subst h'
      unfold modifyFirst
      rw [if_pos hx]
      exact @List.find?_cons_of_pos _ (fun p => p.1 == u) (x.1, s) xs hx
    · have hx' : ¬(x.1 == u) = true := hx
      rw [@List.find?_cons_of_neg _ (fun p => p.1 == u) x xs hx'] at h
      unfold modifyFirst
      rw [if_neg hx,
        @List.find?_cons_of_neg _ (fun p => p.1 == u) x
          (modifyFirst (fun p => p.1 == u) (fun p => (p.1, s)) xs) hx']
      exact ih h

theorem stageOf_update_user_stage (st : AppState) (u : Nat) (s : String) :
    stageOf (update_user_stage st u s) u = some s := by
  unfold stageOf update_user_stage
  rcases hf : st.stages.find? (fun p => p.1 == u) with _ | p0
  · simp only [hf]
    rw [find?_stage_append_none st.stages u s hf]
    rfl
  · simp only [hf]
    rw [find?_stage_modifyFirst st.stages u s p0 hf]
    rfl

/-- C8 counterexample: removing the currently locked entry is rejected
with the UNIVERSITY_LOCKED error and the entry and stage are untouched
as claimed, but the stored state is NOT left unchanged: the task rows
of the user are deleted (and committed) before the rejection. -/
theorem locked_removal_counterexample :
    (remove_shortlist lockedState 1 7).1 = some "UNIVERSITY_LOCKED" ∧
    (remove_shortlist lockedState 1 7).2.shortlists = lockedState.shortlists ∧
    stageOf (remove_shortlist lockedState 1 7).2 1 = stageOf lockedState 1 ∧
    (remove_shortlist lockedState 1 7).2.tasks = [] ∧
    lockedState.tasks ≠ [] ∧
    (remove_shortlist lockedState 1 7).2 ≠ lockedState := by
  decide

/-- C8 amended: for every state in which the requested entry exists and
is locked, the removal raises the UNIVERSITY_LOCKED domain error and
deletes nothing from the shortlist and changes no stage, but it does
clear the task rows of the user before raising. -/
theorem locked_removal_rejected :
    ∀ (st : AppState) (u v : Nat) (e : SEntry),
      st.shortlists.find? (isEntry u v) = some e → e.locked = true →
      remove_shortlist st u v =
        (some "UNIVERSITY_LOCKED",
          { st with tasks := st.tasks.filter (fun t => !(t.user_id == u)) }) := by
  intro st u v e hf hl
  unfold remove_shortlist
  simp only [hf]
  rw [if_pos hl]
  rfl

/-- Witness for C8 amended at the concrete locked state. -/
theorem locked_removal_rejected_witness :
    remove_shortlist lockedState 1 7 =
      (some "UNIVERSITY_LOCKED",
        { lockedState with
            tasks := lockedState.tasks.filter (fun t => !(t.user_id == 1)) }) :=
  locked_removal_rejected lockedState 1 7 ⟨1, 7, "TARGET", true⟩ rfl rfl

/-- C10 counterexample: removing the last (unlocked) entry of the user
does move the stage back to DISCOVERY, but the task set is NOT cleared:
the task rows survive the removal. -/
theorem remove_last_entry_counterexample :
    (remove_shortlist lastEntryState 1 7).1 = none ∧
    (remove_shortlist lastEntryState 1 7).2.shortlists = [] ∧
    stageOf (remove_shortlist lastEntryState 1 7).2 1 = some "DISCOVERY" ∧
    (remove_shortlist lastEntryState 1 7).2.tasks = lastEntryState.tasks ∧
    lastEntryState.tasks ≠ [] := by
  decide

/-- C10 amended: when the removal of an unlocked entry succeeds, the
task rows are always left exactly as they were, and when no entry of
the user remains the stage is set back to DISCOVERY. -/
theorem remove_last_entry_stage :
    ∀ (st : AppState) (u v : Nat) (e : SEntry),
      st.shortlists.find? (isEntry u v) = some e → e.locked = false →
      (remove_shortlist st u v).1 = none ∧
      (remove_shortlist st u v).2.tasks = st.tasks ∧
      (((st.shortlists.eraseP (isEntry u v)).filter
          (fun x => x.user_id == u)).length = 0 →
        stageOf (remove_shortlist st u v).2 u = some "DISCOVERY") := by
  intro st u v e hf hl
  have hnl : ¬(e.locked = true) := by rw [hl]; exact Bool.false_ne_true
  unfold remove_shortlist
  simp only [hf]
  rw [if_neg hnl]
  refine ⟨?_, ?_, ?_⟩
  · dsimp only
    split_ifs <;> rfl
  · dsimp only
    split_ifs with h
    · rw [tasks_update_user_stage]
    · rfl
  · intro hz
    dsimp only
    rw [if_pos hz]
    exact stageOf_update_user_stage _ u "DISCOVERY"

/-- Witness for C10 amended at the concrete single-entry state. -/
theorem remove_last_entry_stage_witness :
    (remove_shortlist lastEntryState 1 7).1 = none ∧
    stageOf (remove_shortlist lastEntryState 1 7).2 1 = some "DISCOVERY" :=
  ⟨(remove_last_entry_stage lastEntryState 1 7 ⟨1, 7, "TARGET", false⟩ rfl rfl).1,
   (remove_last_entry_stage lastEntryState 1 7 ⟨1, 7, "TARGET", false⟩ rfl rfl).2.2
     (by decide)⟩
